import Mathlib

/-!
Shallow embedding of `src/taglibs/async/async-fragment-tag.js` (the async
fragment tag renderer).  The JavaScript file exports a single `render`
function built from the helpers `isPromise`, `promiseToCallback` and
`requestData`.  The rendering is event-loop driven: `render` runs a
synchronous prologue (dispatching on the shape of the data provider, arming
a timeout, writing a placeholder in client-reorder mode and emitting the
`asyncFragmentBegin` event) and then the environment delivers asynchronous
events (the provider invoking its callback, an adapted promise settling,
or the armed timer firing), each of which drives the `renderBody`
completion closure.

The embedding is a state machine: `render` is a pure function from the
input object and the shared `out.global.__asyncFragments` context to a
result record holding the closure state, the list of performed effects,
the updated global context and the pending subscriptions; `step` consumes
one asynchronous delivery.  Opaque caller-supplied callbacks
(`input.renderBody`, `input.renderError`, `input.renderTimeout`,
`input.renderPlaceholder`) are modelled by their presence flag plus an
`Effect` recording their invocation; they are assumed to return normally.
-/

namespace AsyncFragmentTag

/-- Opaque payload handed to the callback as the `data` argument.  The
renderer never inspects it, so a natural number stands for it. -/
abbrev Data := Nat

/-- An error value flowing through the renderer: either an opaque value
produced by the data provider, or an `Error` object constructed by the
renderer itself (`new Error(message)` on the timeout path, line 165). -/
inductive ErrVal where
  | providerErr (tag : Nat)
  | errObj (message : String)
deriving DecidableEq, Repr

/-- Shape of a thenable as far as `promiseToCallback` (lines 12-35)
inspects it: whether `promise.catch`, `promise.fail` and
`finalPromise.done` are functions.  (`done()` only forces unhandled
rejections to be rethrown globally; it never reaches the callback, so it
has no effect in this model.) -/
structure PromiseShape where
  hasCatch : Bool
  hasFail : Bool
  hasDone : Bool
deriving DecidableEq, Repr

/-- A settlement of a thenable. -/
inductive PromiseEvent where
  | fulfil (d : Data)
  | reject (e : ErrVal)
deriving DecidableEq, Repr

/-- One invocation of the completion callback: `callback(err, data)`. -/
structure CbCall where
  err : Option ErrVal
  data : Option Data
deriving DecidableEq, Repr

/-- Embedding of `promiseToCallback` (lines 12-35): the `then` handler
forwards a fulfilment value as `callback(null, data)`; a rejection reaches
`callback(err)` only through the handler attached by `catch` (line 19) or,
failing that, `fail` (line 23).  A thenable with neither method gets no
rejection handler at all, so a rejection produces no callback invocation. -/
def promiseToCallback (sh : PromiseShape) : PromiseEvent → Option CbCall
  | PromiseEvent.fulfil d => some ⟨none, some d⟩
  | PromiseEvent.reject e =>
      if sh.hasCatch || sh.hasFail then some ⟨some e, none⟩ else none

/-- Return value of a provider function, as classified by lines 51-57:
`undefined` (nothing further happens synchronously), a thenable (adapted
through `promiseToCallback`), or any other defined value (forwarded as
`callback(null, data)`). -/
inductive FnRet where
  | undef
  | value (d : Data)
  | promise (sh : PromiseShape)
deriving DecidableEq, Repr

/-- Behaviour of a provider function body that returns normally: it may
invoke the callback synchronously before returning, and it produces a
return value. -/
structure FnBehavior where
  syncCall : Option CbCall
  ret : FnRet
deriving DecidableEq, Repr

/-- What a provider function does when invoked: throw synchronously
(before storing or invoking the callback), or run to completion with a
given behaviour. -/
inductive FnAct where
  | throws (e : ErrVal)
  | runs (beh : FnBehavior)
deriving DecidableEq, Repr

/-- The data provider, classified the way `requestData` (lines 37-63)
dispatches on it: a thenable (`isPromise`, line 8: truthy with a `then`
function — checked first, so a function carrying a `then` method lands
here), a function with its declared arity (`provider.length === 1`), or
any other value, treated as a plain data object. -/
inductive Provider where
  | promise (sh : PromiseShape)
  | fn (arity1 : Bool) (act : FnAct)
  | plain (d : Data)
deriving DecidableEq, Repr

/-- Embedding of `isPromise` (lines 8-10) on the classified provider. -/
def isPromise : Provider → Bool
  | Provider.promise _ => true
  | _ => false

/-- How a function provider was invoked (lines 45-49): with only the
callback when its arity is 1, with `(args, callback)` otherwise. -/
inductive FnInvocat where
  | onlyCallback
  | argsAndCallback
deriving DecidableEq, Repr

/-- Subscriptions left behind by `requestData`: whether a function
provider now holds the callback (and may invoke it at any later time),
and the shape of a thenable that was adapted through `promiseToCallback`,
if any. -/
structure Pending where
  fnHoldsCb : Bool
  adaptedPromise : Option PromiseShape
deriving DecidableEq, Repr

/-- Result of the synchronous part of `requestData` (lines 37-63). -/
structure ReqResult where
  invocat : Option FnInvocat
  syncCalls : List CbCall
  thrown : Option ErrVal
  pending : Pending
deriving DecidableEq, Repr

/-- Embedding of `requestData` (lines 37-63).  A thenable is adapted and
nothing happens synchronously; a function is invoked (with only the
callback when `provider.length === 1`), its synchronous callback
invocations happen first, then a non-`undefined` return value is either
adapted (if thenable) or forwarded as `callback(null, data)`; a
synchronous throw propagates out (there is no try/catch); any other
provider is assumed to be a data object and forwarded as
`callback(null, provider)`. -/
def requestData : Provider → ReqResult
  | Provider.promise sh =>
      { invocat := none, syncCalls := [], thrown := none,
        pending := ⟨false, some sh⟩ }
  | Provider.fn arity1 act =>
      let inv := some (if arity1 then FnInvocat.onlyCallback
                       else FnInvocat.argsAndCallback)
      match act with
      | FnAct.throws e =>
          { invocat := inv, syncCalls := [], thrown := some e,
            pending := ⟨false, none⟩ }
      | FnAct.runs beh =>
          let callsDuring := match beh.syncCall with
            | some c => [c]
            | none => []
          match beh.ret with
          | FnRet.undef =>
              { invocat := inv, syncCalls := callsDuring, thrown := none,
                pending := ⟨true, none⟩ }
          | FnRet.value d =>
              { invocat := inv, syncCalls := callsDuring ++ [⟨none, some d⟩],
                thrown := none, pending := ⟨true, none⟩ }
          | FnRet.promise sh =>
              { invocat := inv, syncCalls := callsDuring, thrown := none,
                pending := ⟨true, some sh⟩ }
  | Provider.plain d =>
      { invocat := none, syncCalls := [⟨none, some d⟩], thrown := none,
        pending := ⟨false, none⟩ }

/-- The three event names this file emits on the output object. -/
inductive EventName where
  | asyncFragmentBegin
  | asyncFragmentBeforeRender
  | asyncFragmentFinish
deriving DecidableEq, Repr

/-- Which writer an effect targets: the main `out`, or the fragment's own
writer (`asyncOut`); `targetOut = asyncOut || out` (line 93). -/
inductive Target where
  | mainOut
  | fragOut
deriving DecidableEq, Repr

/-- Observable actions of the renderer, in program order. -/
inductive Effect where
  | emit (ev : EventName)
  | write (s : String)
  | renderBodyCall (t : Target) (d : Option Data)
  | renderErrorCall (t : Target)
  | renderTimeoutCall (t : Target)
  | renderPlaceholderCall
  | errorChannel (t : Target) (e : ErrVal)
  | consoleError
  | logError (msg : String)
  | clearTimer
  | setTimer (ms : Int)
  | asyncOutEnd
  | flush
  | beginAsync
deriving DecidableEq, Repr

/-- The `input` object, restricted to the fields `render` reads.  The four
renderer callbacks are modelled by presence flags.  `input.arg` and
`input.scope` are only forwarded to the provider and so are absorbed into
`FnBehavior`; `input.method` (lines 139-142) merely rebinds the provider
to one of its methods, so `dataProvider` here denotes the provider after
any such binding. -/
structure Input where
  dataProvider : Provider
  clientReorder : Bool
  name : Option String
  nameFallback : Option String
  renderBody : Bool
  renderError : Bool
  renderTimeout : Bool
  renderPlaceholder : Bool
  timeout : Option Int
  showAfter : Option String
deriving DecidableEq, Repr

/-- JavaScript string truthiness for an optional string field (absent or
empty means falsy). -/
def strTruthy : Option String → Bool
  | none => false
  | some s => !(s = "")

/-- The `name` local (line 74): `input.name || input._name`, with the
string a JavaScript template would interpolate when both are absent
(`undefined` prints as "undefined").  `nameFallback` models `input._name`. -/
def jsName (input : Input) : String :=
  if strTruthy input.name then input.name.getD ""
  else
    match input.nameFallback with
    | some s => s
    | none => "undefined"

/-- Mutable state captured by the `render` closure: the `done` flag, the
armed timer (`timeoutId`, remembering the duration the timer was armed
with), the two emission flags, and whether `asyncOut` has been assigned. -/
structure St where
  done : Bool
  armedTimeout : Option Int
  beginEmitted : Bool
  beforeRenderEmitted : Bool
  asyncOutSet : Bool
deriving DecidableEq, Repr

/-- The writer `renderBody` targets: `asyncOut || out` (line 93). -/
def targetOf (st : St) : Target :=
  if st.asyncOutSet then Target.fragOut else Target.mainOut

/-- The content-producing branch of `renderBody` (lines 109-122): an
error goes to `input.renderError` (after a `console.error`) when that
renderer is supplied and to `targetOut.error(err)` otherwise; with no
error, a supplied third argument means the timeout renderer runs, and
otherwise `input.renderBody(targetOut, data)` runs when present. -/
def renderContent (input : Input) (target : Target) (err : Option ErrVal)
    (d : Option Data) (rt : Bool) : List Effect :=
  match err with
  | some e =>
      if input.renderError then [Effect.consoleError, Effect.renderErrorCall target]
      else [Effect.errorChannel target e]
  | none =>
      if rt then [Effect.renderTimeoutCall target]
      else if input.renderBody then [Effect.renderBodyCall target d] else []

/-- Lines 86-89: clear the armed timer if there is one. -/
def clearPart (st : St) : List Effect :=
  if st.armedTimeout.isSome then [Effect.clearTimer] else []

/-- Lines 95-102: emit `asyncFragmentBegin` unless already emitted. -/
def beginPart (st : St) : List Effect :=
  if st.beginEmitted then [] else [Effect.emit EventName.asyncFragmentBegin]

/-- Lines 104-107: emit `asyncFragmentBeforeRender` unless already
emitted. -/
def beforePart (st : St) : List Effect :=
  if st.beforeRenderEmitted then []
  else [Effect.emit EventName.asyncFragmentBeforeRender]

/-- Lines 124-126: emit `asyncFragmentFinish` only when client
reordering is off. -/
def finishPart (clientReorder : Bool) : List Effect :=
  if clientReorder then [] else [Effect.emit EventName.asyncFragmentFinish]

/-- Lines 128-136: end the fragment writer when one was created, and
flush the main stream when not reordering. -/
def endPart (clientReorder : Bool) (st : St) : List Effect :=
  if st.asyncOutSet then
    Effect.asyncOutEnd :: (if clientReorder then [] else [Effect.flush])
  else []

/-- Embedding of the `renderBody` closure (lines 85-137).  It clears the
armed timer, sets `done`, emits `asyncFragmentBegin` and
`asyncFragmentBeforeRender` unless already emitted, renders the content,
emits `asyncFragmentFinish` only when client reordering is off, and ends
(and, without reordering, flushes) the fragment writer when one was
created.  Note there is no guard on `done`: every invocation runs the
whole body again. -/
def renderBody (input : Input) (clientReorder : Bool) (st : St)
    (err : Option ErrVal) (d : Option Data) (rt : Bool) : St × List Effect :=
  ( { st with armedTimeout := none, done := true,
              beginEmitted := true, beforeRenderEmitted := true },
    clearPart st
    ++ beginPart st
    ++ beforePart st
    ++ renderContent input (targetOf st) err d rt
    ++ finishPart clientReorder
    ++ endPart clientReorder st )

/-- Identifier of a deferred fragment (line 176): `input.name` when
truthy, otherwise the numeric counter from the shared context. -/
inductive FragId where
  | str (s : String)
  | num (n : Nat)
deriving DecidableEq, Repr

/-- String interpolation of a fragment id into the placeholder markup. -/
def fragIdStr : FragId → String
  | FragId.str s => s
  | FragId.num n => toString n

/-- The shared `out.global.__asyncFragments` context (lines 171-174): a
fragment list and a counter for ids of unnamed fragments. -/
structure FragmentContext where
  nextId : Nat
  fragments : List FragId
deriving DecidableEq, Repr

/-- Result of the synchronous part of one `render` invocation. -/
structure RenderResult where
  st : St
  effects : List Effect
  globalCtx : Option FragmentContext
  pending : Pending
  thrown : Option ErrVal
  fragId : Option FragId
deriving DecidableEq, Repr

/-- Lines 234-239: emit `asyncFragmentBegin` unless the synchronous
completion already did. -/
def emitBeginIfNeeded (st : St) : St × List Effect :=
  if st.beginEmitted then (st, [])
  else ({ st with beginEmitted := true },
        [Effect.emit EventName.asyncFragmentBegin])

/-- Fold the synchronous callback invocations performed inside
`requestData` through the `renderBody` closure (the third argument,
`renderTimeout`, is only ever supplied by the timer). -/
def runCalls (input : Input) (clientReorder : Bool) :
    St → List CbCall → St × List Effect
  | st, [] => (st, [])
  | st, c :: rest =>
      let r := renderBody input clientReorder st c.err c.data false
      let r2 := runCalls input clientReorder r.1 rest
      (r2.1, r.2 ++ r2.2)

/-- The timeout computed by lines 151-155: `null`/`undefined` defaults to
10000 ms, a non-positive value disables the timer, anything else is used
as given. -/
def effectiveTimeout (timeout : Option Int) : Option Int :=
  match timeout with
  | none => some 10000
  | some t => if t ≤ 0 then none else some t

/-- The message of the synthesized timeout error (line 159). -/
def timeoutMessage (name : String) (t : Int) : String :=
  "Async fragment (" ++ name ++ ") timed out after " ++ toString t ++ "ms"

/-- Lines 157-168: arm the timer with the effective timeout, if any. -/
def timerArm (st1 : St) (timeout : Option Int) : St × List Effect :=
  match effectiveTimeout timeout with
  | some t => ({ st1 with armedTimeout := some t }, [Effect.setTimer t])
  | none => (st1, [])

/-- Lines 170-184 and 222-224 of the client-reorder block: resolve the
fragment id against the shared context (`input.name || nextId++`, line
176), record the fragment, and produce the placeholder markup — a `span`
wrapping `input.renderPlaceholder` when that callback is supplied, an
empty `noscript` element otherwise.  Returns the updated context, the
fragment id, and the placeholder effects. -/
def reorderBlock (input : Input) (g : Option FragmentContext) :
    FragmentContext × FragId × List Effect :=
  let ctx0 := g.getD { nextId := 0, fragments := [] }
  let id : FragId :=
    if strTruthy input.name then FragId.str (input.name.getD "")
    else FragId.num ctx0.nextId
  let ctx1 : FragmentContext :=
    { nextId := if strTruthy input.name then ctx0.nextId else ctx0.nextId + 1,
      fragments := ctx0.fragments ++ [id] }
  let phEffs : List Effect :=
    if input.renderPlaceholder then
      [Effect.write ("<span id=\"afph" ++ fragIdStr id ++ "\">"),
       Effect.renderPlaceholderCall,
       Effect.write "</span>"]
    else
      [Effect.write ("<noscript id=\"afph" ++ fragIdStr id ++ "\"></noscript>")]
  (ctx1, id, phEffs)

/-- The initial closure state of one `render` invocation (lines 71-83):
nothing done, no timer armed, no event emitted, no fragment writer. -/
def initSt : St :=
  { done := false, armedTimeout := none, beginEmitted := false,
    beforeRenderEmitted := false, asyncOutSet := false }

/-- Embedding of the exported `render` function (lines 65-240), up to the
point where it returns to its caller.  `support` is
`isClientReorderSupported` from `./client-reorder`; `g` is the current
`out.global.__asyncFragments`.  A synchronous throw from the provider
propagates out of `render` (there is no try/catch), so in that case
nothing after line 144 runs.  Otherwise, when the provider has not
completed synchronously, the timer is armed, and either the
client-reorder block runs (placeholder write, fragment-context update,
fresh fragment writer) or the main stream is flushed and `beginAsync`
opens the fragment writer; finally `asyncFragmentBegin` is emitted unless
a synchronous completion already emitted it. -/
def render (support : Bool) (input : Input) (g : Option FragmentContext) :
    RenderResult :=
  let clientReorder := support && input.clientReorder
  let st0 : St := initSt
  let req := requestData input.dataProvider
  match req.thrown with
  | some e =>
      { st := st0, effects := [], globalCtx := g, pending := req.pending,
        thrown := some e, fragId := none }
  | none =>
      let r1 := runCalls input clientReorder st0 req.syncCalls
      let st1 := r1.1
      if st1.done then
        let r3 := emitBeginIfNeeded st1
        { st := r3.1, effects := r1.2 ++ r3.2, globalCtx := g,
          pending := req.pending, thrown := none, fragId := none }
      else
        let ta := timerArm st1 input.timeout
        let st2 := ta.1
        if clientReorder then
          let rb := reorderBlock input g
          let st3 : St := { st2 with asyncOutSet := true }
          let r3 := emitBeginIfNeeded st3
          { st := r3.1,
            effects := r1.2 ++ ta.2 ++ rb.2.2 ++ r3.2,
            globalCtx := some rb.1, pending := req.pending, thrown := none,
            fragId := some rb.2.1 }
        else
          let st3 : St := { st2 with asyncOutSet := true }
          let r3 := emitBeginIfNeeded st3
          { st := r3.1,
            effects := r1.2 ++ ta.2
                        ++ [Effect.flush, Effect.beginAsync] ++ r3.2,
            globalCtx := g, pending := req.pending, thrown := none,
            fragId := none }

/-- An asynchronous event delivered by the environment after `render`
returned: a function provider invoking the callback it holds, an adapted
thenable settling, or the armed timer firing. -/
inductive Delivery where
  | fnCb (err : Option ErrVal) (d : Option Data)
  | pFulfil (d : Data)
  | pReject (e : ErrVal)
  | timerFire
deriving DecidableEq, Repr

/-- One asynchronous step.  Promise settlements reach the callback
through the handlers `promiseToCallback` attached; `clearTimeout` ensures
a cleared timer never fires, so `timerFire` on an unarmed state is a
no-op.  The timer callback (lines 158-167) logs and runs the timeout
renderer when `input.renderTimeout` is supplied, and otherwise synthesizes
`new Error(message)` and hands it to `renderBody`. -/
def step (input : Input) (clientReorder : Bool) (pend : Pending) (st : St) :
    Delivery → St × List Effect
  | Delivery.fnCb err d =>
      if pend.fnHoldsCb then renderBody input clientReorder st err d false
      else (st, [])
  | Delivery.pFulfil d =>
      match pend.adaptedPromise with
      | some sh =>
          match promiseToCallback sh (PromiseEvent.fulfil d) with
          | some c => renderBody input clientReorder st c.err c.data false
          | none => (st, [])
      | none => (st, [])
  | Delivery.pReject e =>
      match pend.adaptedPromise with
      | some sh =>
          match promiseToCallback sh (PromiseEvent.reject e) with
          | some c => renderBody input clientReorder st c.err c.data false
          | none => (st, [])
      | none => (st, [])
  | Delivery.timerFire =>
      match st.armedTimeout with
      | some t =>
          if input.renderTimeout then
            let r := renderBody input clientReorder st none none true
            (r.1, Effect.logError (timeoutMessage (jsName input) t) :: r.2)
          else
            renderBody input clientReorder st
              (some (ErrVal.errObj (timeoutMessage (jsName input) t))) none false
      | none => (st, [])

/-- Fold a list of asynchronous deliveries. -/
def runSteps (input : Input) (clientReorder : Bool) (pend : Pending) :
    St → List Delivery → St × List Effect
  | st, [] => (st, [])
  | st, dv :: rest =>
      let r := step input clientReorder pend st dv
      let r2 := runSteps input clientReorder pend r.1 rest
      (r2.1, r.2 ++ r2.2)

/-- The full effect trace of one `render` invocation followed by a given
sequence of asynchronous deliveries. -/
def renderTrace (support : Bool) (input : Input) (g : Option FragmentContext)
    (dvs : List Delivery) : List Effect :=
  let r := render support input g
  r.effects
    ++ (runSteps input (support && input.clientReorder) r.pending r.st dvs).2

/-- Count the effects satisfying a predicate. -/
def countE (p : Effect → Bool) (l : List Effect) : Nat := l.countP p

/-- Recognize the emission of a given event. -/
def emitOf (ev : EventName) : Effect → Bool
  | Effect.emit e => decide (e = ev)
  | _ => false

/-- Recognize a content-rendering effect: the fragment body, the error
renderer, the timeout renderer, or the output error channel. -/
def contentEff : Effect → Bool
  | Effect.renderBodyCall _ _ => true
  | Effect.renderErrorCall _ => true
  | Effect.renderTimeoutCall _ => true
  | Effect.errorChannel _ _ => true
  | _ => false

/-- Recognize an invocation of `input.renderBody`. -/
def isBodyCall : Effect → Bool
  | Effect.renderBodyCall _ _ => true
  | _ => false

/-- Recognize an effect that funnels an error: the caller-supplied error
renderer or the output stream's error channel. -/
def funnelEff : Effect → Bool
  | Effect.renderErrorCall _ => true
  | Effect.errorChannel _ _ => true
  | _ => false

/-- Every effect satisfying `q` is strictly preceded in the list by an
effect satisfying `p`: every prefix that contains a `q`-effect already
contains a `p`-effect. -/
def precededBy (p q : Effect → Bool) (l : List Effect) : Prop :=
  ∀ n : Nat, (l.take n).any q = true → (l.take n).any p = true

theorem pre_of_not_any {p q : Effect → Bool} {l : List Effect}
    (h : l.any q = false) : precededBy p q l := by
  intro n hn
  exfalso
  rcases List.any_eq_true.mp hn with ⟨x, hx, hqx⟩
  have hxl : x ∈ l := List.take_subset n l hx
  have : l.any q = true := List.any_eq_true.mpr ⟨x, hxl, hqx⟩
  rw [this] at h
  simp at h

theorem pre_of_head {p q : Effect → Bool} {x : Effect} {l : List Effect}
    (h : p x = true) : precededBy p q (x :: l) := by
  intro n hn
  cases n with
  | zero => simp at hn
  | succ m =>
      rw [List.take_succ_cons, List.any_cons, h]
      rfl

theorem pre_cons {p q : Effect → Bool} {x : Effect} {l : List Effect}
    (hq : q x = false) (h : precededBy p q l) : precededBy p q (x :: l) := by
  intro n hn
  cases n with
  | zero => simp at hn
  | succ m =>
      rw [List.take_succ_cons, List.any_cons, hq, Bool.false_or] at hn
      rw [List.take_succ_cons, List.any_cons, h m hn, Bool.or_true]

theorem pre_append {p q : Effect → Bool} {l1 l2 : List Effect}
    (h1 : precededBy p q l1) (h2 : precededBy p q l2) :
    precededBy p q (l1 ++ l2) := by
  intro n hn
  rw [List.take_append_eq_append_take, List.any_append] at hn ⊢
  rcases Bool.or_eq_true_iff.mp hn with h | h
  · rw [h1 n h]
    rfl
  · rw [h2 _ h, Bool.or_true]

theorem pre_append_of_any {p q : Effect → Bool} {l1 l2 : List Effect}
    (hp : l1.any p = true) (h1 : precededBy p q l1) :
    precededBy p q (l1 ++ l2) := by
  intro n hn
  rw [List.take_append_eq_append_take, List.any_append] at hn ⊢
  rcases Bool.or_eq_true_iff.mp hn with h | h
  · rw [h1 n h]
    rfl
  · have hlen : l1.length ≤ n := by
      by_contra hc
      push_neg at hc
      rw [Nat.sub_eq_zero_of_le (Nat.le_of_lt hc)] at h
      simp at h
    rw [List.take_of_length_le hlen, hp]
    rfl

theorem countE_eq_zero {p : Effect → Bool} {l : List Effect}
    (h : l.any p = false) : countE p l = 0 := by
  rw [countE, List.countP_eq_zero]
  intro a ha hpa
  have : l.any p = true := List.any_eq_true.mpr ⟨a, ha, hpa⟩
  rw [this] at h
  simp at h

theorem any_of_countE_one {p : Effect → Bool} {l : List Effect}
    (h : countE p l = 1) : l.any p = true := by
  have hpos : 0 < l.countP p := by
    rw [countE] at h
    omega
  rcases List.countP_pos_iff.mp hpos with ⟨x, hx, hpx⟩
  exact List.any_eq_true.mpr ⟨x, hx, hpx⟩

/-- Invariant tying the closure flags to the trace accumulated so far:
the number of `asyncFragmentBegin` emissions matches `beginEmitted`, the
`asyncFragmentBeforeRender` event has been emitted whenever its flag is
set, no content has been rendered before either flag got set, every
content effect is preceded by both events, and in client-reorder mode no
`asyncFragmentFinish` is ever emitted. -/
structure TraceInv (clientReorder bBegin bBefore : Bool) (l : List Effect) :
    Prop where
  beginCount :
    countE (emitOf EventName.asyncFragmentBegin) l = (if bBegin then 1 else 0)
  beforeAny : bBefore = true →
    l.any (emitOf EventName.asyncFragmentBeforeRender) = true
  noContentOfBegin : bBegin = false → l.any contentEff = false
  noContentOfBefore : bBefore = false → l.any contentEff = false
  noBeforeOfBegin : bBegin = false →
    l.any (emitOf EventName.asyncFragmentBeforeRender) = false
  beginOrder : precededBy (emitOf EventName.asyncFragmentBegin) contentEff l
  beforeOrder :
    precededBy (emitOf EventName.asyncFragmentBeforeRender) contentEff l
  beginBeforeOrder : precededBy (emitOf EventName.asyncFragmentBegin)
    (emitOf EventName.asyncFragmentBeforeRender) l
  noFinish : clientReorder = true →
    l.any (emitOf EventName.asyncFragmentFinish) = false

theorem inv_nil (cr : Bool) : TraceInv cr false false [] := by
  constructor <;> simp [countE, precededBy]

/-- Appending a block with no content effects and no lifecycle emissions
preserves the invariant. -/
theorem inv_append_neutral {cr b1 b2 : Bool} {l : List Effect}
    (h : TraceInv cr b1 b2 l) {b : List Effect}
    (hc : b.any contentEff = false)
    (hemit : ∀ ev : EventName, b.any (emitOf ev) = false) :
    TraceInv cr b1 b2 (l ++ b) := by
  constructor
  · rw [countE, List.countP_append]
    have := countE_eq_zero (hemit EventName.asyncFragmentBegin)
    rw [countE] at this
    rw [this, Nat.add_zero]
    exact h.beginCount
  · intro hb
    rw [List.any_append, h.beforeAny hb]
    rfl
  · intro hb
    rw [List.any_append, h.noContentOfBegin hb, hc]
    rfl
  · intro hb
    rw [List.any_append, h.noContentOfBefore hb, hc]
    rfl
  · intro hb
    rw [List.any_append, h.noBeforeOfBegin hb,
      hemit EventName.asyncFragmentBeforeRender]
    rfl
  · exact pre_append h.beginOrder (pre_of_not_any hc)
  · exact pre_append h.beforeOrder (pre_of_not_any hc)
  · exact pre_append h.beginBeforeOrder
      (pre_of_not_any (hemit EventName.asyncFragmentBeforeRender))
  · intro hcr
    rw [List.any_append, h.noFinish hcr, hemit EventName.asyncFragmentFinish]
    rfl

@[simp] theorem renderBody_fst (input : Input) (cr : Bool) (st : St)
    (err : Option ErrVal) (d : Option Data) (rt : Bool) :
    (renderBody input cr st err d rt).1
      = { st with armedTimeout := none, done := true,
                  beginEmitted := true, beforeRenderEmitted := true } := rfl

theorem renderContent_no_emit (input : Input) (target : Target)
    (err : Option ErrVal) (d : Option Data) (rt : Bool) (ev : EventName) :
    (renderContent input target err d rt).any (emitOf ev) = false := by
  rcases err with _ | e
  · unfold renderContent
    by_cases hrt : rt <;> by_cases hrb : input.renderBody <;>
      simp [hrt, hrb, emitOf]
  · unfold renderContent
    by_cases hre : input.renderError <;> simp [hre, emitOf]

theorem clearPart_no_emit (st : St) (ev : EventName) :
    (clearPart st).any (emitOf ev) = false := by
  unfold clearPart
  split <;> simp [emitOf]

theorem clearPart_no_content (st : St) :
    (clearPart st).any contentEff = false := by
  unfold clearPart
  split <;> simp [contentEff]

theorem beginPart_no_content (st : St) :
    (beginPart st).any contentEff = false := by
  unfold beginPart
  split <;> simp [contentEff]

theorem beforePart_no_content (st : St) :
    (beforePart st).any contentEff = false := by
  unfold beforePart
  split <;> simp [contentEff]

theorem finishPart_no_content (cr : Bool) :
    (finishPart cr).any contentEff = false := by
  unfold finishPart
  split <;> simp [contentEff]

theorem endPart_no_emit (cr : Bool) (st : St) (ev : EventName) :
    (endPart cr st).any (emitOf ev) = false := by
  unfold endPart
  split <;> [skip; simp]
  split <;> simp [emitOf]

theorem endPart_no_content (cr : Bool) (st : St) :
    (endPart cr st).any contentEff = false := by
  unfold endPart
  split <;> [skip; simp]
  split <;> simp [contentEff]

theorem beginPart_count (st : St) :
    countE (emitOf EventName.asyncFragmentBegin) (beginPart st)
      = (if st.beginEmitted then 0 else 1) := by
  unfold beginPart
  split <;> simp [countE, emitOf]

theorem beforePart_count_begin (st : St) :
    countE (emitOf EventName.asyncFragmentBegin) (beforePart st) = 0 := by
  unfold beforePart
  split <;> simp [countE, emitOf]

theorem finishPart_count_begin (cr : Bool) :
    countE (emitOf EventName.asyncFragmentBegin) (finishPart cr) = 0 := by
  unfold finishPart
  split <;> simp [countE, emitOf]

theorem beginPart_no_finish (st : St) :
    (beginPart st).any (emitOf EventName.asyncFragmentFinish) = false := by
  unfold beginPart
  split <;> simp [emitOf]

theorem beforePart_no_finish (st : St) :
    (beforePart st).any (emitOf EventName.asyncFragmentFinish) = false := by
  unfold beforePart
  split <;> simp [emitOf]

theorem finishPart_reorder (cr : Bool) (h : cr = true) : finishPart cr = [] := by
  rw [h]
  rfl

/-- The `renderBody` block preserves the trace invariant and leaves both
emission flags set. -/
theorem inv_renderBody {cr : Bool} (input : Input) (st : St)
    (err : Option ErrVal) (d : Option Data) (rt : Bool) {l : List Effect}
    (h : TraceInv cr st.beginEmitted st.beforeRenderEmitted l) :
    TraceInv cr true true (l ++ (renderBody input cr st err d rt).2) := by
  constructor
  · rw [countE] at *
    rw [renderBody]
    simp only [List.countP_append]
    have h1 := h.beginCount
    rw [countE] at h1
    have h2 := beginPart_count st
    rw [countE] at h2
    have h3 := beforePart_count_begin st
    rw [countE] at h3
    have h4 := countE_eq_zero (clearPart_no_emit st EventName.asyncFragmentBegin)
    rw [countE] at h4
    have h5 := countE_eq_zero
      (renderContent_no_emit input (targetOf st) err d rt
        EventName.asyncFragmentBegin)
    rw [countE] at h5
    have h6 := finishPart_count_begin cr
    rw [countE] at h6
    have h7 := countE_eq_zero (endPart_no_emit cr st EventName.asyncFragmentBegin)
    rw [countE] at h7
    rw [h1, h2, h3, h4, h5, h6, h7]
    cases hb : st.beginEmitted <;> simp
  · intro _
    rw [renderBody]
    simp only [List.any_append]
    cases hbf : st.beforeRenderEmitted
    · have : (beforePart st).any
          (emitOf EventName.asyncFragmentBeforeRender) = true := by
        unfold beforePart
        rw [hbf]
        simp [emitOf]
      rw [this]
      simp
    · rw [h.beforeAny hbf]
      simp
  · intro hfalse
    exact absurd hfalse (by simp)
  · intro hfalse
    exact absurd hfalse (by simp)
  · intro hfalse
    exact absurd hfalse (by simp)
  · cases hb : st.beginEmitted
    · refine pre_append h.beginOrder ?_
      rw [renderBody]
      have hbp : beginPart st = [Effect.emit EventName.asyncFragmentBegin] := by
        unfold beginPart
        rw [hb]
        rfl
      rw [hbp]
      rcases harm : st.armedTimeout with _ | t
      · have hcp : clearPart st = [] := by
          unfold clearPart
          rw [harm]
          rfl
        rw [hcp]
        simp only [List.nil_append, List.cons_append, List.singleton_append]
        exact pre_of_head (by simp [emitOf])
      · have hcp : clearPart st = [Effect.clearTimer] := by
          unfold clearPart
          rw [harm]
          rfl
        rw [hcp]
        simp only [List.cons_append, List.singleton_append, List.nil_append]
        exact pre_cons rfl (pre_of_head (by simp [emitOf]))
    · have hany : l.any (emitOf EventName.asyncFragmentBegin) = true := by
        apply any_of_countE_one
        rw [h.beginCount, hb]
        rfl
      exact pre_append_of_any hany h.beginOrder
  · cases hbf : st.beforeRenderEmitted
    · refine pre_append h.beforeOrder ?_
      rw [renderBody]
      have hbfp : beforePart st
          = [Effect.emit EventName.asyncFragmentBeforeRender] := by
        unfold beforePart
        rw [hbf]
        rfl
      rw [hbfp]
      have hstep : precededBy (emitOf EventName.asyncFragmentBeforeRender)
          contentEff
          ([Effect.emit EventName.asyncFragmentBeforeRender]
            ++ (renderContent input (targetOf st) err d rt
                 ++ (finishPart cr ++ endPart cr st))) := by
        simp only [List.singleton_append]
        exact pre_of_head (by simp [emitOf])
      rcases hb : st.beginEmitted
      · have hbp : beginPart st = [Effect.emit EventName.asyncFragmentBegin] := by
          unfold beginPart
          rw [hb]
          rfl
        rw [hbp]
        rcases harm : st.armedTimeout with _ | t
        · have hcp : clearPart st = [] := by
            unfold clearPart
            rw [harm]
            rfl
          rw [hcp]
          simp only [List.nil_append, List.singleton_append, List.cons_append,
            List.append_assoc]
          exact pre_cons rfl (by
            simpa only [List.singleton_append, List.cons_append,
              List.append_assoc] using hstep)
        · have hcp : clearPart st = [Effect.clearTimer] := by
            unfold clearPart
            rw [harm]
            rfl
          rw [hcp]
          simp only [List.singleton_append, List.cons_append, List.nil_append,
            List.append_assoc]
          exact pre_cons rfl (pre_cons rfl (by
            simpa only [List.singleton_append, List.cons_append,
              List.append_assoc] using hstep))
      · have hbp : beginPart st = [] := by
          unfold beginPart
          rw [hb]
          rfl
        rw [hbp]
        rcases harm : st.armedTimeout with _ | t
        · have hcp : clearPart st = [] := by
            unfold clearPart
            rw [harm]
            rfl
          rw [hcp]
          simp only [List.nil_append, List.singleton_append, List.cons_append,
            List.append_assoc]
          simpa only [List.singleton_append, List.cons_append,
            List.append_assoc] using hstep
        · have hcp : clearPart st = [Effect.clearTimer] := by
            unfold clearPart
            rw [harm]
            rfl
          rw [hcp]
          simp only [List.singleton_append, List.cons_append, List.nil_append,
            List.append_assoc]
          exact pre_cons rfl (by
            simpa only [List.singleton_append, List.cons_append,
              List.append_assoc] using hstep)
    · have hany : l.any (emitOf EventName.asyncFragmentBeforeRender) = true :=
        h.beforeAny hbf
      exact pre_append_of_any hany h.beforeOrder
  · cases hb : st.beginEmitted
    · refine pre_append h.beginBeforeOrder ?_
      rw [renderBody]
      have hbp : beginPart st = [Effect.emit EventName.asyncFragmentBegin] := by
        unfold beginPart
        rw [hb]
        rfl
      rw [hbp]
      rcases harm : st.armedTimeout with _ | t
      · have hcp : clearPart st = [] := by
          unfold clearPart
          rw [harm]
          rfl
        rw [hcp]
        simp only [List.nil_append, List.cons_append, List.singleton_append]
        exact pre_of_head (by simp [emitOf])
      · have hcp : clearPart st = [Effect.clearTimer] := by
          unfold clearPart
          rw [harm]
          rfl
        rw [hcp]
        simp only [List.cons_append, List.singleton_append, List.nil_append]
        exact pre_cons rfl (pre_of_head (by simp [emitOf]))
    · have hany : l.any (emitOf EventName.asyncFragmentBegin) = true := by
        apply any_of_countE_one
        rw [h.beginCount, hb]
        rfl
      exact pre_append_of_any hany h.beginBeforeOrder
  · intro hcr
    rw [renderBody]
    simp only [List.any_append]
    rw [clearPart_no_emit st EventName.asyncFragmentFinish,
      beginPart_no_finish st, beforePart_no_finish st,
      renderContent_no_emit input (targetOf st) err d rt
        EventName.asyncFragmentFinish,
      finishPart_reorder cr hcr,
      endPart_no_emit cr st EventName.asyncFragmentFinish,
      h.noFinish hcr]
    rfl

/-- The final unconditional `asyncFragmentBegin` emission (lines 234-239)
preserves the trace invariant. -/
theorem inv_emitBegin {cr : Bool} {st : St} {l : List Effect}
    (h : TraceInv cr st.beginEmitted st.beforeRenderEmitted l) :
    TraceInv cr (emitBeginIfNeeded st).1.beginEmitted
      (emitBeginIfNeeded st).1.beforeRenderEmitted
      (l ++ (emitBeginIfNeeded st).2) := by
  unfold emitBeginIfNeeded
  cases hb : st.beginEmitted
  · simp only [hb, Bool.false_eq_true, if_false]
    constructor
    · rw [countE, List.countP_append]
      have h1 := h.beginCount
      rw [countE] at h1
      rw [h1, hb]
      simp [emitOf, countE]
    · intro hbf
      rw [List.any_append, h.beforeAny hbf]
      rfl
    · intro hfalse
      exact absurd hfalse (by simp)
    · intro hbf
      rw [List.any_append, h.noContentOfBefore hbf]
      simp [contentEff]
    · intro hfalse
      exact absurd hfalse (by simp)
    · apply pre_of_not_any
      rw [List.any_append, h.noContentOfBegin hb]
      simp [contentEff]
    · apply pre_of_not_any
      rw [List.any_append, h.noContentOfBegin hb]
      simp [contentEff]
    · apply pre_of_not_any
      rw [List.any_append, h.noBeforeOfBegin hb]
      simp [emitOf]
    · intro hcr
      rw [List.any_append, h.noFinish hcr]
      simp [emitOf]
  · simp only [hb, if_true]
    rw [List.append_nil]
    rw [← hb]
    exact h

/-- Folding the synchronous callback invocations preserves the trace
invariant. -/
theorem inv_runCalls (input : Input) {cr : Bool} (calls : List CbCall)
    (st : St) {l : List Effect}
    (h : TraceInv cr st.beginEmitted st.beforeRenderEmitted l) :
    TraceInv cr (runCalls input cr st calls).1.beginEmitted
      (runCalls input cr st calls).1.beforeRenderEmitted
      (l ++ (runCalls input cr st calls).2) := by
  induction calls generalizing st l with
  | nil =>
      simpa [runCalls] using h
  | cons c rest ih =>
      have h1 : TraceInv cr
          (renderBody input cr st c.err c.data false).1.beginEmitted
          (renderBody input cr st c.err c.data false).1.beforeRenderEmitted
          (l ++ (renderBody input cr st c.err c.data false).2) :=
        inv_renderBody input st c.err c.data false h
      have h2 := ih (renderBody input cr st c.err c.data false).1 h1
      simpa [runCalls, List.append_assoc] using h2

/-- One asynchronous delivery preserves the trace invariant. -/
theorem inv_step (input : Input) {cr : Bool} (pend : Pending) (st : St)
    (dv : Delivery) {l : List Effect}
    (h : TraceInv cr st.beginEmitted st.beforeRenderEmitted l) :
    TraceInv cr (step input cr pend st dv).1.beginEmitted
      (step input cr pend st dv).1.beforeRenderEmitted
      (l ++ (step input cr pend st dv).2) := by
  cases dv with
  | fnCb err d =>
      by_cases hp : pend.fnHoldsCb
      · simpa [step, hp] using inv_renderBody input st err d false h
      · simp only [Bool.not_eq_true] at hp
        simpa [step, hp] using h
  | pFulfil d =>
      rcases hap : pend.adaptedPromise with _ | sh
      · simpa [step, hap] using h
      · simpa [step, hap, promiseToCallback]
          using inv_renderBody input st none (some d) false h
  | pReject e =>
      rcases hap : pend.adaptedPromise with _ | sh
      · simpa [step, hap] using h
      · by_cases hcf : (sh.hasCatch || sh.hasFail) = true
        · simpa [step, hap, promiseToCallback, hcf]
            using inv_renderBody input st (some e) none false h
        · simp only [Bool.not_eq_true] at hcf
          simpa [step, hap, promiseToCallback, hcf] using h
  | timerFire =>
      rcases harm : st.armedTimeout with _ | t
      · simpa [step, harm] using h
      · by_cases hrt : input.renderTimeout
        · have hneutral : TraceInv cr st.beginEmitted st.beforeRenderEmitted
              (l ++ [Effect.logError (timeoutMessage (jsName input) t)]) :=
            inv_append_neutral h (by simp [contentEff])
              (by intro ev; simp [emitOf])
          have h1 := inv_renderBody input st none none true hneutral
          rw [List.append_assoc] at h1
          simpa [step, harm, hrt] using h1
        · simp only [Bool.not_eq_true] at hrt
          simpa [step, harm, hrt] using
            inv_renderBody input st
              (some (ErrVal.errObj (timeoutMessage (jsName input) t))) none
              false h

/-- Folding asynchronous deliveries preserves the trace invariant. -/
theorem inv_runSteps (input : Input) {cr : Bool} (pend : Pending)
    (dvs : List Delivery) (st : St) {l : List Effect}
    (h : TraceInv cr st.beginEmitted st.beforeRenderEmitted l) :
    TraceInv cr (runSteps input cr pend st dvs).1.beginEmitted
      (runSteps input cr pend st dvs).1.beforeRenderEmitted
      (l ++ (runSteps input cr pend st dvs).2) := by
  induction dvs generalizing st l with
  | nil =>
      simpa [runSteps] using h
  | cons dv rest ih =>
      have h1 := inv_step input pend st dv h
      have h2 := ih (step input cr pend st dv).1 h1
      simpa [runSteps, List.append_assoc] using h2

theorem emitBegin_fst_begin (st : St) :
    (emitBeginIfNeeded st).1.beginEmitted = true := by
  unfold emitBeginIfNeeded
  cases hb : st.beginEmitted
  · simp [hb]
  · simp [hb]

/-- The synchronous part of `render` establishes the trace invariant,
and, whenever the provider did not throw, leaves `beginEmitted` set. -/
theorem timerArm_fst_begin (st1 : St) (t0 : Option Int) :
    (timerArm st1 t0).1.beginEmitted = st1.beginEmitted := by
  unfold timerArm
  rcases effectiveTimeout t0 with _ | t <;> rfl

theorem timerArm_fst_before (st1 : St) (t0 : Option Int) :
    (timerArm st1 t0).1.beforeRenderEmitted = st1.beforeRenderEmitted := by
  unfold timerArm
  rcases effectiveTimeout t0 with _ | t <;> rfl

theorem timerArm_no_content (st1 : St) (t0 : Option Int) :
    (timerArm st1 t0).2.any contentEff = false := by
  unfold timerArm
  rcases effectiveTimeout t0 with _ | t <;> simp [contentEff]

theorem timerArm_no_emit (st1 : St) (t0 : Option Int) (ev : EventName) :
    (timerArm st1 t0).2.any (emitOf ev) = false := by
  unfold timerArm
  rcases effectiveTimeout t0 with _ | t <;> simp [emitOf]

theorem reorderBlock_no_content (input : Input) (g : Option FragmentContext) :
    (reorderBlock input g).2.2.any contentEff = false := by
  unfold reorderBlock
  by_cases hrp : input.renderPlaceholder <;> simp [hrp, contentEff]

theorem reorderBlock_no_emit (input : Input) (g : Option FragmentContext)
    (ev : EventName) :
    (reorderBlock input g).2.2.any (emitOf ev) = false := by
  unfold reorderBlock
  by_cases hrp : input.renderPlaceholder <;> simp [hrp, emitOf]

theorem render_inv (support : Bool) (input : Input)
    (g : Option FragmentContext) :
    TraceInv (support && input.clientReorder)
      (render support input g).st.beginEmitted
      (render support input g).st.beforeRenderEmitted
      (render support input g).effects
    ∧ ((render support input g).thrown = none →
        (render support input g).st.beginEmitted = true) := by
  rcases hth : (requestData input.dataProvider).thrown with _ | e
  · -- requestData returned normally
    simp only [render, hth]
    have hrc := @inv_runCalls input (support && input.clientReorder)
      (requestData input.dataProvider).syncCalls initSt []
      (inv_nil (support && input.clientReorder))
    rw [List.nil_append] at hrc
    set st1 := (runCalls input (support && input.clientReorder) initSt
      (requestData input.dataProvider).syncCalls).1 with hst1
    set effs1 := (runCalls input (support && input.clientReorder) initSt
      (requestData input.dataProvider).syncCalls).2 with heffs1
    by_cases hdone : st1.done = true
    · simp only [hdone, if_true]
      exact ⟨inv_emitBegin hrc, fun _ => emitBegin_fst_begin st1⟩
    · simp only [Bool.not_eq_true] at hdone
      simp only [hdone, Bool.false_eq_true, if_false]
      have h1 := inv_append_neutral hrc (timerArm_no_content st1 input.timeout)
        (timerArm_no_emit st1 input.timeout)
      cases hcr : support && input.clientReorder
      · -- no client reorder: flush and beginAsync, then the begin emission
        have h2 := inv_append_neutral h1
          (b := [Effect.flush, Effect.beginAsync])
          (by simp [contentEff]) (by intro ev; simp [emitOf])
        rw [hcr] at h2
        have h2' : TraceInv false
            ({ (timerArm st1 input.timeout).1 with asyncOutSet := true
               }).beginEmitted
            ({ (timerArm st1 input.timeout).1 with asyncOutSet := true
               }).beforeRenderEmitted
            (effs1 ++ (timerArm st1 input.timeout).2
              ++ [Effect.flush, Effect.beginAsync]) := by
          have hb := timerArm_fst_begin st1 input.timeout
          have hbb := timerArm_fst_before st1 input.timeout
          show TraceInv false (timerArm st1 input.timeout).1.beginEmitted
            (timerArm st1 input.timeout).1.beforeRenderEmitted _
          rw [hb, hbb]
          exact h2
        have h3 := inv_emitBegin h2'
        simp only [Bool.false_eq_true, if_false]
        refine ⟨?_, fun _ => emitBegin_fst_begin _⟩
        simpa [List.append_assoc] using h3
      · -- client reorder: placeholder block, then the begin emission
        have h2 := inv_append_neutral h1 (reorderBlock_no_content input g)
          (reorderBlock_no_emit input g)
        rw [hcr] at h2
        have h2' : TraceInv true
            ({ (timerArm st1 input.timeout).1 with asyncOutSet := true
               }).beginEmitted
            ({ (timerArm st1 input.timeout).1 with asyncOutSet := true
               }).beforeRenderEmitted
            (effs1 ++ (timerArm st1 input.timeout).2
              ++ (reorderBlock input g).2.2) := by
          have hb := timerArm_fst_begin st1 input.timeout
          have hbb := timerArm_fst_before st1 input.timeout
          show TraceInv true (timerArm st1 input.timeout).1.beginEmitted
            (timerArm st1 input.timeout).1.beforeRenderEmitted _
          rw [hb, hbb]
          exact h2
        have h3 := inv_emitBegin h2'
        simp only [if_true]
        refine ⟨?_, fun _ => emitBegin_fst_begin _⟩
        simpa [List.append_assoc] using h3
  · -- the provider threw synchronously
    constructor
    · simpa [render, hth] using inv_nil (support && input.clientReorder)
    · intro hcontra
      simp [render, hth] at hcontra

theorem step_begin_mono (input : Input) (cr : Bool) (pend : Pending) (st : St)
    (dv : Delivery) (h : st.beginEmitted = true) :
    (step input cr pend st dv).1.beginEmitted = true := by
  cases dv with
  | fnCb err d => by_cases hp : pend.fnHoldsCb <;> simp [step, hp, h]
  | pFulfil d =>
      rcases hap : pend.adaptedPromise with _ | sh <;>
        simp [step, hap, promiseToCallback, h]
  | pReject e =>
      rcases hap : pend.adaptedPromise with _ | sh
      · simp [step, hap, h]
      · by_cases hcf : (sh.hasCatch || sh.hasFail) = true <;>
          simp [step, hap, promiseToCallback, hcf, h]
  | timerFire =>
      rcases harm : st.armedTimeout with _ | t
      · simp [step, harm, h]
      · by_cases hrt : input.renderTimeout <;> simp [step, harm, hrt, h]

theorem runSteps_begin_mono (input : Input) (cr : Bool) (pend : Pending)
    (dvs : List Delivery) (st : St) (h : st.beginEmitted = true) :
    (runSteps input cr pend st dvs).1.beginEmitted = true := by
  induction dvs generalizing st with
  | nil => simpa [runSteps] using h
  | cons dv rest ih =>
      simp only [runSteps]
      exact ih _ (step_begin_mono input cr pend st dv h)

/-- The trace invariant holds of the full trace of a render followed by
any sequence of asynchronous deliveries. -/
theorem trace_inv (support : Bool) (input : Input)
    (g : Option FragmentContext) (dvs : List Delivery) :
    TraceInv (support && input.clientReorder)
      (runSteps input (support && input.clientReorder)
        (render support input g).pending
        (render support input g).st dvs).1.beginEmitted
      (runSteps input (support && input.clientReorder)
        (render support input g).pending
        (render support input g).st dvs).1.beforeRenderEmitted
      (renderTrace support input g dvs) := by
  have h1 := (render_inv support input g).1
  have h2 := inv_runSteps input (render support input g).pending dvs
    (render support input g).st h1
  simpa [renderTrace] using h2

/-- With no pending subscription and no armed timer every asynchronous
delivery is a no-op. -/
theorem runSteps_inert (input : Input) (cr : Bool) (dvs : List Delivery)
    (st : St) (hf : st.armedTimeout = none) :
    runSteps input cr ⟨false, none⟩ st dvs = (st, []) := by
  induction dvs with
  | nil => rfl
  | cons dv rest ih =>
      have hstep : step input cr ⟨false, none⟩ st dv = (st, []) := by
        cases dv <;> simp [step, hf]
      simp [runSteps, hstep, ih]

/-- Recognize an invocation of `input.renderError`. -/
def isRenderErrorFx : Effect → Bool
  | Effect.renderErrorCall _ => true
  | _ => false

/-- Recognize a write to the error channel `targetOut.error`. -/
def isErrChanFx : Effect → Bool
  | Effect.errorChannel _ _ => true
  | _ => false

theorem any_false_mono {p q : Effect → Bool} {l : List Effect}
    (hpq : ∀ x, p x = true → q x = true) (h : l.any q = false) :
    l.any p = false := by
  by_contra hc
  rw [Bool.not_eq_false] at hc
  rcases List.any_eq_true.mp hc with ⟨x, hx, hpx⟩
  have : l.any q = true := List.any_eq_true.mpr ⟨x, hx, hpq x hpx⟩
  rw [this] at h
  simp at h

theorem funnel_le_content : ∀ x, funnelEff x = true → contentEff x = true := by
  intro x
  cases x <;> simp [funnelEff, contentEff]

theorem bodyCall_le_content : ∀ x, isBodyCall x = true → contentEff x = true := by
  intro x
  cases x <;> simp [isBodyCall, contentEff]

/-- A callback-style provider of arity 2 that completes asynchronously
(stores the callback and returns `undefined`), in an input with a body
renderer, no error or timeout renderer, and a 5 ms timeout. -/
def exAsyncFnInput : Input :=
  { dataProvider := Provider.fn false (FnAct.runs ⟨none, FnRet.undef⟩),
    clientReorder := false, name := some "frag", nameFallback := none,
    renderBody := true, renderError := false, renderTimeout := false,
    renderPlaceholder := false, timeout := some 5, showAfter := none }

/-- The same input with a provider function that throws synchronously. -/
def exThrowInput : Input :=
  { exAsyncFnInput with
    dataProvider := Provider.fn false (FnAct.throws (ErrVal.providerErr 7)) }

/-- An unnamed client-reorder input whose provider is a promise with a
`catch` method. -/
def exReorderInput : Input :=
  { exAsyncFnInput with
    dataProvider := Provider.promise ⟨true, false, false⟩,
    clientReorder := true, name := none }

/-- C7: `requestData` dispatches on the shape of the data provider: a
thenable is adapted so its fulfilment value reaches the callback as
`(null, data)`; a function is invoked with only the callback when its
declared arity is 1 and with `(args, callback)` otherwise, and a
non-`undefined` return value is adapted as a promise when thenable or
otherwise passed synchronously to the callback as successful data; any
other value is passed directly to the callback as successful data. -/
theorem c7_requestData_dispatch :
    (∀ sh : PromiseShape,
        requestData (Provider.promise sh)
          = { invocat := none, syncCalls := [], thrown := none,
              pending := ⟨false, some sh⟩ })
    ∧ (∀ (sh : PromiseShape) (d : Data),
        promiseToCallback sh (PromiseEvent.fulfil d) = some ⟨none, some d⟩)
    ∧ (∀ (a : Bool) (act : FnAct),
        (requestData (Provider.fn a act)).invocat
          = some (if a then FnInvocat.onlyCallback
                  else FnInvocat.argsAndCallback))
    ∧ (∀ (a : Bool) (sc : Option CbCall) (d : Data),
        (requestData (Provider.fn a (FnAct.runs ⟨sc, FnRet.value d⟩))).syncCalls
          = (match sc with | some c => [c] | none => []) ++ [⟨none, some d⟩]
        ∧ (requestData (Provider.fn a
            (FnAct.runs ⟨sc, FnRet.value d⟩))).pending.adaptedPromise = none)
    ∧ (∀ (a : Bool) (sc : Option CbCall) (sh : PromiseShape),
        (requestData (Provider.fn a
            (FnAct.runs ⟨sc, FnRet.promise sh⟩))).pending.adaptedPromise
          = some sh
        ∧ (requestData (Provider.fn a
            (FnAct.runs ⟨sc, FnRet.promise sh⟩))).syncCalls
          = (match sc with | some c => [c] | none => []))
    ∧ (∀ (a : Bool) (sc : Option CbCall),
        (requestData (Provider.fn a (FnAct.runs ⟨sc, FnRet.undef⟩))).syncCalls
          = (match sc with | some c => [c] | none => []))
    ∧ (∀ d : Data,
        requestData (Provider.plain d)
          = { invocat := none, syncCalls := [⟨none, some d⟩], thrown := none,
              pending := ⟨false, none⟩ }) := by
  refine ⟨fun sh => rfl, fun sh d => rfl, ?_, ?_, ?_, ?_, fun d => rfl⟩
  · intro a act
    rcases act with e | ⟨sc, ret⟩
    · rfl
    · rcases ret <;> rfl
  · intro a sc d
    exact ⟨rfl, rfl⟩
  · intro a sc sh
    exact ⟨rfl, rfl⟩
  · intro a sc
    rfl

/-- C3: when the armed timer fires, if no `input.renderTimeout` is
supplied the completion callback is invoked with a synthesized `Error`
whose message names the fragment and the timeout duration; if
`input.renderTimeout` is supplied no error is synthesized and the timeout
renderer is invoked on the target output while the body renderer is not. -/
theorem c3_timeout_behaviour (input : Input) (cr : Bool) (pend : Pending)
    (st : St) (t : Int) (h : st.armedTimeout = some t) :
    (input.renderTimeout = false →
      step input cr pend st Delivery.timerFire
        = renderBody input cr st
            (some (ErrVal.errObj
              ("Async fragment (" ++ jsName input ++ ") timed out after "
                ++ toString t ++ "ms"))) none false)
    ∧ (input.renderTimeout = true →
        Effect.renderTimeoutCall (targetOf st)
            ∈ (step input cr pend st Delivery.timerFire).2
        ∧ (step input cr pend st Delivery.timerFire).2.any isBodyCall = false
        ∧ (step input cr pend st Delivery.timerFire).2.any funnelEff = false) := by
  constructor
  · intro hrt
    simp [step, h, hrt, timeoutMessage]
  · intro hrt
    refine ⟨?_, ?_, ?_⟩
    · simp [step, h, hrt, renderBody, renderContent]
    · simp only [step, h, hrt, if_true, List.any_cons]
      have hc : (renderBody input cr st none none true).2.any isBodyCall
          = false := by
        simp only [renderBody, List.any_append]
        rw [any_false_mono bodyCall_le_content (clearPart_no_content st),
          any_false_mono bodyCall_le_content (beginPart_no_content st),
          any_false_mono bodyCall_le_content (beforePart_no_content st),
          any_false_mono bodyCall_le_content (finishPart_no_content cr),
          any_false_mono bodyCall_le_content (endPart_no_content cr st)]
        simp [renderContent, isBodyCall]
      rw [hc]
      rfl
    · simp only [step, h, hrt, if_true, List.any_cons]
      have hc : (renderBody input cr st none none true).2.any funnelEff
          = false := by
        simp only [renderBody, List.any_append]
        rw [any_false_mono funnel_le_content (clearPart_no_content st),
          any_false_mono funnel_le_content (beginPart_no_content st),
          any_false_mono funnel_le_content (beforePart_no_content st),
          any_false_mono funnel_le_content (finishPart_no_content cr),
          any_false_mono funnel_le_content (endPart_no_content cr st)]
        simp [renderContent, funnelEff]
      rw [hc]
      rfl

/-- Witness for C3 at a concrete armed state and input. -/
theorem c3_witness :
    step exAsyncFnInput false ⟨true, none⟩
        { done := false, armedTimeout := some 5, beginEmitted := true,
          beforeRenderEmitted := false, asyncOutSet := true }
        Delivery.timerFire
      = renderBody exAsyncFnInput false
          { done := false, armedTimeout := some 5, beginEmitted := true,
            beforeRenderEmitted := false, asyncOutSet := true }
          (some (ErrVal.errObj "Async fragment (frag) timed out after 5ms"))
          none false := by
  have h := (c3_timeout_behaviour exAsyncFnInput false ⟨true, none⟩
    { done := false, armedTimeout := some 5, beginEmitted := true,
      beforeRenderEmitted := false, asyncOutSet := true } 5 rfl).1 rfl
  simpa [jsName, exAsyncFnInput, strTruthy] using h

/-- C10: a rejection of a thenable with neither a `catch` nor a `fail`
method never reaches the completion callback: the adapter attaches no
rejection handler, so the corresponding delivery is a no-op (no error
renderer, no error channel write, no state change); the fragment can then
complete only through the timeout fallback, if a timer is armed. -/
theorem c10_reject_without_handlers (sh : PromiseShape) (e : ErrVal)
    (h1 : sh.hasCatch = false) (h2 : sh.hasFail = false) :
    promiseToCallback sh (PromiseEvent.reject e) = none
    ∧ (requestData (Provider.promise sh)).pending = ⟨false, some sh⟩
    ∧ (∀ (input : Input) (cr : Bool) (st : St),
        step input cr ⟨false, some sh⟩ st (Delivery.pReject e) = (st, [])) := by
  refine ⟨?_, rfl, ?_⟩
  · simp [promiseToCallback, h1, h2]
  · intro input cr st
    simp [step, promiseToCallback, h1, h2]

/-- Witness for C10 at a concrete shape and state. -/
theorem c10_witness :
    step exAsyncFnInput false ⟨false, some ⟨false, false, true⟩⟩
        { done := false, armedTimeout := some 5, beginEmitted := true,
          beforeRenderEmitted := false, asyncOutSet := true }
        (Delivery.pReject (ErrVal.providerErr 1))
      = ({ done := false, armedTimeout := some 5, beginEmitted := true,
           beforeRenderEmitted := false, asyncOutSet := true }, []) :=
  (c10_reject_without_handlers ⟨false, false, true⟩ (ErrVal.providerErr 1)
    rfl rfl).2.2 exAsyncFnInput false _

/-- C1 counterexample: with an asynchronous callback-style provider and a
5 ms timeout, the timeout fires (rendering the synthesized error to the
error channel, emitting `asyncFragmentFinish`, ending the fragment
writer) and a late provider result afterwards drives `renderBody` a
second time: the fragment body is rendered from the late data, and the
content-rendering and finish effects each occur twice in the trace —
the late result is not ignored. -/
theorem c1_counterexample :
    countE contentEff (renderTrace true exAsyncFnInput none
        [Delivery.timerFire, Delivery.fnCb none (some 3)]) = 2
    ∧ countE (emitOf EventName.asyncFragmentFinish)
        (renderTrace true exAsyncFnInput none
          [Delivery.timerFire, Delivery.fnCb none (some 3)]) = 2
    ∧ Effect.renderBodyCall Target.fragOut (some 3)
        ∈ renderTrace true exAsyncFnInput none
            [Delivery.timerFire, Delivery.fnCb none (some 3)] := by
  decide

/-- C1 amended: the completion callback is not guarded against repeated
invocation.  A function provider that holds the callback drives
`renderBody` whenever it calls back — even when `done` is already set by
an earlier timeout — and `renderBody` unconditionally re-renders the
fragment content (only the begin/before-render emissions are suppressed
by their flags), so at-most-once resolution is not enforced. -/
theorem c1_amended_no_once_guard (input : Input) (cr : Bool) (pend : Pending)
    (st : St) (err : Option ErrVal) (d : Option Data)
    (hp : pend.fnHoldsCb = true) :
    step input cr pend st (Delivery.fnCb err d)
      = renderBody input cr st err d false
    ∧ (input.renderBody = true →
        (renderBody input cr st none d false).2.any isBodyCall = true) := by
  constructor
  · simp [step, hp]
  · intro hrb
    simp [renderBody, renderContent, hrb, isBodyCall, List.any_append]

/-- Witness for C1 amended at a completed state. -/
theorem c1_witness :
    step exAsyncFnInput false ⟨true, none⟩
        { done := true, armedTimeout := none, beginEmitted := true,
          beforeRenderEmitted := true, asyncOutSet := true }
        (Delivery.fnCb none (some 3))
      = renderBody exAsyncFnInput false
          { done := true, armedTimeout := none, beginEmitted := true,
            beforeRenderEmitted := true, asyncOutSet := true }
          none (some 3) false
    ∧ (renderBody exAsyncFnInput false
        { done := true, armedTimeout := none, beginEmitted := true,
          beforeRenderEmitted := true, asyncOutSet := true }
        none (some 3) false).2.any isBodyCall = true := by
  have h := c1_amended_no_once_guard exAsyncFnInput false ⟨true, none⟩
    { done := true, armedTimeout := none, beginEmitted := true,
      beforeRenderEmitted := true, asyncOutSet := true } none (some 3) rfl
  exact ⟨h.1, h.2 rfl⟩

/-- C2 counterexample: a provider function that throws synchronously
propagates its error out of `render` (there is no try/catch): the error
is recorded as thrown, and no effect of the whole trace funnels it to the
error renderer or to the error channel. -/
theorem c2_counterexample :
    (render true exThrowInput none).thrown = some (ErrVal.providerErr 7)
    ∧ countE funnelEff (renderTrace true exThrowInput none
        [Delivery.fnCb (some (ErrVal.providerErr 7)) none,
         Delivery.timerFire]) = 0 := by
  decide

/-- C2 amended: an error that reaches the completion callback as its
first argument is funneled to exactly one of the caller-supplied error
renderer (when present) or the output stream's error channel; a rejected
promise reaches the callback this way only when the promise exposes a
`catch` or `fail` method; an error thrown synchronously by a provider
function propagates out of `render` with no funnel effect at all. -/
theorem c2_amended_error_funnel :
    (∀ (input : Input) (cr : Bool) (st : St) (e : ErrVal) (d : Option Data)
        (rt : Bool),
      countE funnelEff (renderBody input cr st (some e) d rt).2 = 1
      ∧ (renderBody input cr st (some e) d rt).2.any isRenderErrorFx
          = input.renderError
      ∧ (renderBody input cr st (some e) d rt).2.any isErrChanFx
          = !input.renderError)
    ∧ (∀ (a : Bool) (e : ErrVal) (support : Bool) (input : Input)
        (g : Option FragmentContext) (dvs : List Delivery),
        input.dataProvider = Provider.fn a (FnAct.throws e) →
        (render support input g).thrown = some e
        ∧ renderTrace support input g dvs = [])
    ∧ (∀ (sh : PromiseShape) (e : ErrVal),
        (sh.hasCatch || sh.hasFail) = true →
        promiseToCallback sh (PromiseEvent.reject e) = some ⟨some e, none⟩) := by
  refine ⟨?_, ?_, ?_⟩
  · intro input cr st e d rt
    refine ⟨?_, ?_, ?_⟩
    · rw [countE]
      simp only [renderBody, List.countP_append]
      have k1 := countE_eq_zero (any_false_mono funnel_le_content
        (clearPart_no_content st))
      have k2 := countE_eq_zero (any_false_mono funnel_le_content
        (beginPart_no_content st))
      have k3 := countE_eq_zero (any_false_mono funnel_le_content
        (beforePart_no_content st))
      have k4 := countE_eq_zero (any_false_mono funnel_le_content
        (finishPart_no_content cr))
      have k5 := countE_eq_zero (any_false_mono funnel_le_content
        (endPart_no_content cr st))
      rw [countE] at k1 k2 k3 k4 k5
      rw [k1, k2, k3, k4, k5]
      by_cases hre : input.renderError <;>
        simp [renderContent, hre, funnelEff]
    · simp only [renderBody, List.any_append]
      rw [any_false_mono (by intro x; cases x <;> simp [isRenderErrorFx, contentEff])
          (clearPart_no_content st),
        any_false_mono (by intro x; cases x <;> simp [isRenderErrorFx, contentEff])
          (beginPart_no_content st),
        any_false_mono (by intro x; cases x <;> simp [isRenderErrorFx, contentEff])
          (beforePart_no_content st),
        any_false_mono (by intro x; cases x <;> simp [isRenderErrorFx, contentEff])
          (finishPart_no_content cr),
        any_false_mono (by intro x; cases x <;> simp [isRenderErrorFx, contentEff])
          (endPart_no_content cr st)]
      by_cases hre : input.renderError <;>
        simp [renderContent, hre, isRenderErrorFx]
    · simp only [renderBody, List.any_append]
      rw [any_false_mono (by intro x; cases x <;> simp [isErrChanFx, contentEff])
          (clearPart_no_content st),
        any_false_mono (by intro x; cases x <;> simp [isErrChanFx, contentEff])
          (beginPart_no_content st),
        any_false_mono (by intro x; cases x <;> simp [isErrChanFx, contentEff])
          (beforePart_no_content st),
        any_false_mono (by intro x; cases x <;> simp [isErrChanFx, contentEff])
          (finishPart_no_content cr),
        any_false_mono (by intro x; cases x <;> simp [isErrChanFx, contentEff])
          (endPart_no_content cr st)]
      by_cases hre : input.renderError <;>
        simp [renderContent, hre, isErrChanFx]
  · intro a e support input g dvs hdp
    have hreq : requestData input.dataProvider
        = { invocat := some (if a then FnInvocat.onlyCallback
              else FnInvocat.argsAndCallback),
            syncCalls := [], thrown := some e, pending := ⟨false, none⟩ } := by
      rw [hdp]
      rfl
    constructor
    · simp [render, hreq]
    · have hr : render support input g
          = { st := initSt, effects := [], globalCtx := g,
              pending := ⟨false, none⟩, thrown := some e,
              fragId := none } := by
        simp [render, hreq]
      rw [renderTrace, hr]
      rw [runSteps_inert input (support && input.clientReorder) dvs _ rfl]
      rfl
  · intro sh e hcf
    simp [promiseToCallback, hcf]

/-- Witness for C2 amended at a concrete state and error. -/
theorem c2_witness :
    countE funnelEff (renderBody exAsyncFnInput false
        { done := false, armedTimeout := none, beginEmitted := true,
          beforeRenderEmitted := false, asyncOutSet := true }
        (some (ErrVal.providerErr 7)) none false).2 = 1
    ∧ (render true exThrowInput none).thrown
        = some (ErrVal.providerErr 7) := by
  refine ⟨(c2_amended_error_funnel.1 exAsyncFnInput false
    { done := false, armedTimeout := none, beginEmitted := true,
      beforeRenderEmitted := false, asyncOutSet := true }
    (ErrVal.providerErr 7) none false).1, ?_⟩
  exact (c2_amended_error_funnel.2.1 false (ErrVal.providerErr 7) true
    exThrowInput none [] rfl).1

theorem emitBegin_fst_armed (st : St) :
    (emitBeginIfNeeded st).1.armedTimeout = st.armedTimeout := by
  unfold emitBeginIfNeeded
  cases hb : st.beginEmitted <;> simp [hb]

theorem timerArm_fst_armed (t0 : Option Int) (st1 : St)
    (h : st1.armedTimeout = none) :
    (timerArm st1 t0).1.armedTimeout = effectiveTimeout t0 := by
  unfold timerArm
  rcases het : effectiveTimeout t0 with _ | t
  · simpa using h
  · rfl

/-- C4 counterexample: in client-reorder mode `render` stores a fragment
context on `out.global` and bumps its counter, and a second invocation
that shares the same global observes the state the first one left behind:
the two invocations receive distinct fragment ids 0 and 1. -/
theorem c4_counterexample :
    (render true exReorderInput none).globalCtx
        = some { nextId := 1, fragments := [FragId.num 0] }
    ∧ (render true exReorderInput none).fragId = some (FragId.num 0)
    ∧ (render true exReorderInput
        (render true exReorderInput none).globalCtx).fragId
      = some (FragId.num 1) := by
  decide

/-- C4 amended: the closure state of `render` (fragment name, timeout id,
completion flag, placeholder id) is per-invocation, except that in
client-reorder mode the shared fragment context
`out.global.__asyncFragments` (its `nextId` counter and fragment list)
persists across invocations; whenever `input.clientReorder` is off, an
invocation leaves the shared global untouched. -/
theorem c4_amended_no_shared_state_without_reorder (support : Bool)
    (input : Input) (g : Option FragmentContext)
    (h : input.clientReorder = false) :
    (render support input g).globalCtx = g := by
  rcases hth : (requestData input.dataProvider).thrown with _ | e
  · simp only [render, hth, h, Bool.and_false, Bool.false_eq_true, if_false]
    split <;> rfl
  · simp [render, hth]

/-- Witness for C4 amended: a non-reorder invocation leaves the global
context unchanged. -/
theorem c4_witness :
    (render true exAsyncFnInput
        (some { nextId := 3, fragments := [FragId.num 2] })).globalCtx
      = some { nextId := 3, fragments := [FragId.num 2] } :=
  c4_amended_no_shared_state_without_reorder true exAsyncFnInput
    (some { nextId := 3, fragments := [FragId.num 2] }) rfl

/-- C5 counterexample: in client-reorder mode a fragment that resolves
(here through the promise fulfilling) emits `asyncFragmentBegin` and
`asyncFragmentBeforeRender` and renders its body, but
`asyncFragmentFinish` is never emitted by this code. -/
theorem c5_counterexample :
    (renderTrace true exReorderInput none [Delivery.pFulfil 9]).any
        (emitOf EventName.asyncFragmentFinish) = false
    ∧ (renderTrace true exReorderInput none [Delivery.pFulfil 9]).any
        (emitOf EventName.asyncFragmentBegin) = true
    ∧ (renderTrace true exReorderInput none [Delivery.pFulfil 9]).any
        (emitOf EventName.asyncFragmentBeforeRender) = true
    ∧ (renderTrace true exReorderInput none [Delivery.pFulfil 9]).any
        isBodyCall = true := by
  decide

/-- C5 amended: `asyncFragmentBegin` is emitted on every invocation whose
provider does not throw; each execution of the completion callback emits
`asyncFragmentBeforeRender` (unless already emitted) before the content;
`asyncFragmentFinish` is emitted by each completion only when client-side
reordering is not in effect, and never when it is. -/
theorem c5_amended_lifecycle (support : Bool) (input : Input)
    (g : Option FragmentContext) (dvs : List Delivery) :
    ((support && input.clientReorder) = true →
      (renderTrace support input g dvs).any
          (emitOf EventName.asyncFragmentFinish) = false)
    ∧ ((render support input g).thrown = none →
      (renderTrace support input g dvs).any
          (emitOf EventName.asyncFragmentBegin) = true)
    ∧ (∀ (st : St) (err : Option ErrVal) (d : Option Data) (rt : Bool),
        (renderBody input false st err d rt).2.any
            (emitOf EventName.asyncFragmentFinish) = true
        ∧ (st.beforeRenderEmitted = false →
            (renderBody input false st err d rt).2.any
              (emitOf EventName.asyncFragmentBeforeRender) = true)) := by
  refine ⟨?_, ?_, ?_⟩
  · intro hcr
    exact (trace_inv support input g dvs).noFinish hcr
  · intro hth
    apply any_of_countE_one
    rw [(trace_inv support input g dvs).beginCount,
      runSteps_begin_mono input (support && input.clientReorder)
        (render support input g).pending dvs (render support input g).st
        ((render_inv support input g).2 hth)]
    rfl
  · intro st err d rt
    constructor
    · simp [renderBody, finishPart, emitOf]
    · intro hbf
      simp [renderBody, beforePart, hbf, emitOf]

/-- Witness for C5 amended at concrete inputs: no finish event in a
reorder trace, and the begin event in a non-reorder trace. -/
theorem c5_witness :
    (renderTrace true exReorderInput none [Delivery.pFulfil 9]).any
        (emitOf EventName.asyncFragmentFinish) = false
    ∧ (renderTrace true exAsyncFnInput none
        [Delivery.fnCb none (some 3)]).any
        (emitOf EventName.asyncFragmentBegin) = true :=
  ⟨(c5_amended_lifecycle true exReorderInput none [Delivery.pFulfil 9]).1 rfl,
   (c5_amended_lifecycle true exAsyncFnInput none
     [Delivery.fnCb none (some 3)]).2.1 rfl⟩

/-- C6 counterexample: when the provider throws synchronously, `render`
propagates the exception and `asyncFragmentBegin` is emitted zero times,
not exactly once. -/
theorem c6_counterexample :
    renderTrace true exThrowInput none [] = []
    ∧ countE (emitOf EventName.asyncFragmentBegin)
        (renderTrace true exThrowInput none []) = 0 := by
  decide

/-- C6 amended: for every invocation of `render` whose provider does not
throw synchronously, `asyncFragmentBegin` is emitted exactly once across
the whole trace — whether the data source resolves synchronously or
asynchronously — and every content-rendering effect (body, error,
timeout, or error channel) is strictly preceded by the
`asyncFragmentBegin` emission and by an `asyncFragmentBeforeRender`
emission. -/
theorem c6_amended_begin_once_ordered (support : Bool) (input : Input)
    (g : Option FragmentContext) (dvs : List Delivery)
    (h : (render support input g).thrown = none) :
    countE (emitOf EventName.asyncFragmentBegin)
        (renderTrace support input g dvs) = 1
    ∧ precededBy (emitOf EventName.asyncFragmentBegin)
        (emitOf EventName.asyncFragmentBeforeRender)
        (renderTrace support input g dvs)
    ∧ precededBy (emitOf EventName.asyncFragmentBegin) contentEff
        (renderTrace support input g dvs)
    ∧ precededBy (emitOf EventName.asyncFragmentBeforeRender) contentEff
        (renderTrace support input g dvs) := by
  have hinv := trace_inv support input g dvs
  refine ⟨?_, hinv.beginBeforeOrder, hinv.beginOrder, hinv.beforeOrder⟩
  rw [hinv.beginCount, runSteps_begin_mono input
    (support && input.clientReorder) (render support input g).pending dvs
    (render support input g).st ((render_inv support input g).2 h)]
  rfl

/-- Witness for C6 amended: a synchronously resolving plain-value
provider and an asynchronously resolving one each emit begin exactly
once. -/
theorem c6_witness :
    (render true exAsyncFnInput none).thrown = none
    ∧ countE (emitOf EventName.asyncFragmentBegin)
        (renderTrace true exAsyncFnInput none
          [Delivery.fnCb none (some 3)]) = 1 :=
  ⟨rfl, (c6_amended_begin_once_ordered true exAsyncFnInput none
    [Delivery.fnCb none (some 3)] rfl).1⟩

/-- C8: when `requestData` returns without the provider completing
synchronously, the timeout of lines 151-155 is armed: `null`/`undefined`
defaults to 10000 ms, a non-positive value arms no timer, any other value
is used as given; a `setTimer` effect is recorded whenever a timer is
armed; and the armed timer is cleared as soon as the completion callback
runs. -/
theorem c8_timeout_arming (support : Bool) (input : Input)
    (g : Option FragmentContext)
    (h1 : (requestData input.dataProvider).thrown = none)
    (h2 : (requestData input.dataProvider).syncCalls = []) :
    (render support input g).st.armedTimeout
      = (match input.timeout with
         | none => some 10000
         | some t => if t ≤ 0 then none else some t)
    ∧ (∀ t : Int, effectiveTimeout input.timeout = some t →
        Effect.setTimer t ∈ (render support input g).effects)
    ∧ (∀ (cr : Bool) (st : St) (err : Option ErrVal) (d : Option Data)
        (rt : Bool),
        (renderBody input cr st err d rt).1.armedTimeout = none
        ∧ (st.armedTimeout.isSome = true →
            Effect.clearTimer ∈ (renderBody input cr st err d rt).2)) := by
  have hdone : initSt.done = false := rfl
  refine ⟨?_, ?_, ?_⟩
  · simp only [render, h1, h2, runCalls, hdone, Bool.false_eq_true, if_false]
    cases hcr : support && input.clientReorder
    · simp only [Bool.false_eq_true, if_false]
      rw [emitBegin_fst_armed]
      show (timerArm initSt input.timeout).1.armedTimeout = _
      rw [timerArm_fst_armed input.timeout initSt rfl]
      rfl
    · simp only [if_true]
      rw [emitBegin_fst_armed]
      show (timerArm initSt input.timeout).1.armedTimeout = _
      rw [timerArm_fst_armed input.timeout initSt rfl]
      rfl
  · intro t het
    have hta : (timerArm initSt input.timeout).2 = [Effect.setTimer t] := by
      unfold timerArm
      rw [het]
    simp only [render, h1, h2, runCalls, hdone, Bool.false_eq_true, if_false]
    cases hcr : support && input.clientReorder
    · simp [hta]
    · simp [hta]
  · intro cr st err d rt
    refine ⟨rfl, ?_⟩
    intro hsome
    simp [renderBody, clearPart, hsome]

/-- Witness for C8: a 5 ms timeout on an asynchronous provider arms a
5 ms timer. -/
theorem c8_witness :
    (requestData exAsyncFnInput.dataProvider).thrown = none
    ∧ (requestData exAsyncFnInput.dataProvider).syncCalls = []
    ∧ (render true exAsyncFnInput none).st.armedTimeout = some 5 :=
  ⟨rfl, rfl, by
    have h := (c8_timeout_arming true exAsyncFnInput none rfl rfl).1
    rw [h]
    decide⟩

/-- C9: in client-reorder mode, when the provider has not completed
synchronously, the fragment id is `input.name` when truthy and otherwise
the `nextId` counter of the shared fragment context, and the placeholder
written to the main stream carries the element id `afph` concatenated
with the fragment id: a `span` wrapping the `renderPlaceholder` output
when that callback is supplied, an empty `noscript` element otherwise. -/
theorem c9_reorder_placeholder (support : Bool) (input : Input)
    (g : Option FragmentContext)
    (hcr : (support && input.clientReorder) = true)
    (h1 : (requestData input.dataProvider).thrown = none)
    (h2 : (requestData input.dataProvider).syncCalls = []) :
    (render support input g).fragId = some (reorderBlock input g).2.1
    ∧ (reorderBlock input g).2.1
        = (if strTruthy input.name then FragId.str (input.name.getD "")
           else FragId.num ((g.getD { nextId := 0, fragments := [] }).nextId))
    ∧ (input.renderPlaceholder = true →
        ∃ pre post, (render support input g).effects
          = pre ++ [Effect.write ("<span id=\"afph"
                ++ fragIdStr (reorderBlock input g).2.1 ++ "\">"),
              Effect.renderPlaceholderCall, Effect.write "</span>"] ++ post)
    ∧ (input.renderPlaceholder = false →
        ∃ pre post, (render support input g).effects
          = pre ++ [Effect.write ("<noscript id=\"afph"
                ++ fragIdStr (reorderBlock input g).2.1 ++ "\"></noscript>")]
              ++ post) := by
  have hdone : initSt.done = false := rfl
  refine ⟨?_, ?_, ?_, ?_⟩
  · simp [render, h1, h2, runCalls, hdone, hcr]
  · simp [reorderBlock]
  · intro hrp
    have hph : (reorderBlock input g).2.2
        = [Effect.write ("<span id=\"afph"
              ++ fragIdStr (reorderBlock input g).2.1 ++ "\">"),
           Effect.renderPlaceholderCall, Effect.write "</span>"] := by
      simp [reorderBlock, hrp]
    refine ⟨(timerArm initSt input.timeout).2,
      (emitBeginIfNeeded { (timerArm initSt input.timeout).1 with
        asyncOutSet := true }).2, ?_⟩
    simp only [render, h1, h2, runCalls, hdone, Bool.false_eq_true, if_false,
      hcr, if_true]
    rw [hph]
    simp [List.append_assoc]
  · intro hrp
    have hph : (reorderBlock input g).2.2
        = [Effect.write ("<noscript id=\"afph"
              ++ fragIdStr (reorderBlock input g).2.1 ++ "\"></noscript>")] := by
      simp [reorderBlock, hrp]
    refine ⟨(timerArm initSt input.timeout).2,
      (emitBeginIfNeeded { (timerArm initSt input.timeout).1 with
        asyncOutSet := true }).2, ?_⟩
    simp only [render, h1, h2, runCalls, hdone, Bool.false_eq_true, if_false,
      hcr, if_true]
    rw [hph]
    simp [List.append_assoc]

/-- Witness for C9: an unnamed reorder fragment gets id 0 from a fresh
context. -/
theorem c9_witness :
    (render true exReorderInput none).fragId
      = some (reorderBlock exReorderInput none).2.1
    ∧ (reorderBlock exReorderInput none).2.1 = FragId.num 0 := by
  have h := c9_reorder_placeholder true exReorderInput none rfl rfl rfl
  refine ⟨h.1, ?_⟩
  rw [h.2.1]
  decide
